import Mathlib

/-!
Shallow embedding of `src/app.py` (a Streamlit Google-Images scraper).

Conventions:
* Network and third-party library calls are oracle parameters:
  `requests.get` + `raise_for_status` + `BeautifulSoup` for the search page
  become `oracle : String → Except String Page` (exception text on failure);
  the regex `findall` over a script body becomes `findall : String → List String`;
  image download + `Image.open(...)` become `fetch : String → Except String PilImg`.
* PIL images are a free algebra: each Pillow operation is a constructor and the
  observable `PilImg.size` is computed exactly as Pillow computes output sizes
  (`crop box (l, t, r, b)` yields size `(r - l, b - t)`).
* Python float arithmetic is idealised as exact rational arithmetic `ℚ`;
  `int(...)` on a nonnegative value is `Int.floor`, Python `//` is `Int.fdiv`.
* Python `list(set(xs))` is modelled as `List.dedup` (an order-unspecified
  duplicate removal; every property proved about it is order-independent).
-/

/-- Python `s.startswith(p)`. -/
def pyStartsWith (s p : String) : Bool := p.data.isPrefixOf s.data

/-- Python `s.strip(c)` for a single strip character. -/
def pyStrip (c : Char) (s : String) : String :=
  ⟨((s.data.dropWhile (· == c)).reverse.dropWhile (· == c)).reverse⟩

/-- Characters of `s` before the first occurrence of the (nonempty) pattern. -/
def splitHeadAux (pat : List Char) : List Char → List Char
  | [] => []
  | a :: rest => if pat.isPrefixOf (a :: rest) then [] else a :: splitHeadAux pat rest

/-- Python `s.split(pat)[0]` for a nonempty separator `pat`. -/
def pySplitOnHead (pat : String) (s : String) : String := ⟨splitHeadAux pat.data s.data⟩

/-- Python `a or b` on optional strings (`None` and `""` are falsy). -/
def pyOrStr : Option String → Option String → Option String
  | some s, b => if s = "" then b else some s
  | none, b => b

/-- Python `s.replace(" ", "_")`. -/
def pyReplace (s : String) : String :=
  ⟨s.data.map (fun c => if c = ' ' then '_' else c)⟩

/-- Free algebra of the Pillow operations used by `app.py`: a decoded source
image (abstract identifier plus its dimensions) and the five operations the
code applies.  `line 87-130 of src/app.py`. -/
inductive PilImg where
  | srcImg (id : Nat) (w h : Nat)
  | convertRGB (i : PilImg)
  | resize (i : PilImg) (w h : Nat)
  | crop (i : PilImg) (left top right bottom : Int)
  | unsharpMask (i : PilImg) (radius : ℚ) (percent : Nat) (threshold : Nat)
  | contrast (i : PilImg) (factor : ℚ)
  | color (i : PilImg) (factor : ℚ)
  | sharpness (i : PilImg) (factor : ℚ)
deriving DecidableEq

/-- Pillow `img.size`: conversion, filters and enhancers preserve size,
`resize` has the requested size, `crop (l, t, r, b)` has size
`(r - l, b - t)` (Pillow pads when the box leaves the image). -/
def PilImg.size : PilImg → Nat × Nat
  | .srcImg _ w h => (w, h)
  | .convertRGB i => i.size
  | .resize _ w h => (w, h)
  | .crop _ l t r b => ((r - l).toNat, (b - t).toNat)
  | .unsharpMask i _ _ _ => i.size
  | .contrast i _ => i.size
  | .color i _ => i.size
  | .sharpness i _ => i.size

/-- True when the image was produced without any sharpening/enhancement
filter (only decode, RGB conversion, resize and crop). -/
def PilImg.filterFree : PilImg → Bool
  | .srcImg _ _ _ => true
  | .convertRGB i => i.filterFree
  | .resize i _ _ => i.filterFree
  | .crop i _ _ _ _ => i.filterFree
  | .unsharpMask _ _ _ _ => false
  | .contrast _ _ => false
  | .color _ _ => false
  | .sharpness _ _ => false

/-- Lines 112-130 of `src/app.py`: the enhancement pipeline, applied only when
`enhance` is true: UnsharpMask(radius 2.5, percent 200, threshold 3), then
Contrast 1.2, Color 1.1, Sharpness 1.15. -/
def enhancePipe (enhance : Bool) (img : PilImg) : PilImg :=
  if enhance then
    PilImg.sharpness
      (PilImg.color
        (PilImg.contrast
          (PilImg.unsharpMask img 2.5 200 3) 1.2) 1.1) 1.15
  else img

/-- Lines 91-109 of `src/app.py`: the conditional resize + center crop.
Python raises `ZeroDivisionError` on the divisions when a divisor is zero;
this is modelled by the `Except.error` results.  `int(...)` of the
nonnegative products is `Int.floor`; Python `//` is `Int.fdiv`. -/
def resizeCropStep (img : PilImg) (tw th : Nat) : Except String PilImg :=
  if th = 0 ∨ (PilImg.size img).2 = 0 then .error "division by zero"
  else if (((PilImg.size img).1 : ℚ) / ((PilImg.size img).2 : ℚ)) >
      ((tw : ℚ) / (th : ℚ)) then
    .ok (PilImg.crop
      (PilImg.resize img
        (⌊((PilImg.size img).1 : ℚ) * ((th : ℚ) / ((PilImg.size img).2 : ℚ))⌋).toNat th)
      (Int.fdiv ((⌊((PilImg.size img).1 : ℚ) * ((th : ℚ) / ((PilImg.size img).2 : ℚ))⌋).toNat - (tw : Int)) 2)
      0
      (Int.fdiv ((⌊((PilImg.size img).1 : ℚ) * ((th : ℚ) / ((PilImg.size img).2 : ℚ))⌋).toNat - (tw : Int)) 2 + (tw : Int))
      (th : Int))
  else if (PilImg.size img).1 = 0 then .error "division by zero"
  else
    .ok (PilImg.crop
      (PilImg.resize img tw
        (⌊((PilImg.size img).2 : ℚ) * ((tw : ℚ) / ((PilImg.size img).1 : ℚ))⌋).toNat)
      0
      (Int.fdiv ((⌊((PilImg.size img).2 : ℚ) * ((tw : ℚ) / ((PilImg.size img).1 : ℚ))⌋).toNat - (th : Int)) 2)
      (tw : Int)
      (Int.fdiv ((⌊((PilImg.size img).2 : ℚ) * ((tw : ℚ) / ((PilImg.size img).1 : ℚ))⌋).toNat - (th : Int)) 2 + (th : Int)))

/-- The cover-and-center-crop formula exactly as the spec claim words it:
scale to the covering dimension (strict aspect comparison), floor the scaled
dimension, center the crop with floor division by 2. -/
def coverCenterCrop (img : PilImg) (tw th : Nat) : PilImg :=
  if (((PilImg.size img).1 : ℚ) / ((PilImg.size img).2 : ℚ)) > ((tw : ℚ) / (th : ℚ)) then
    PilImg.crop
      (PilImg.resize img
        (⌊((PilImg.size img).1 : ℚ) * ((th : ℚ) / ((PilImg.size img).2 : ℚ))⌋).toNat th)
      (Int.fdiv ((⌊((PilImg.size img).1 : ℚ) * ((th : ℚ) / ((PilImg.size img).2 : ℚ))⌋).toNat - (tw : Int)) 2)
      0
      (Int.fdiv ((⌊((PilImg.size img).1 : ℚ) * ((th : ℚ) / ((PilImg.size img).2 : ℚ))⌋).toNat - (tw : Int)) 2 + (tw : Int))
      (th : Int)
  else
    PilImg.crop
      (PilImg.resize img tw
        (⌊((PilImg.size img).2 : ℚ) * ((tw : ℚ) / ((PilImg.size img).1 : ℚ))⌋).toNat)
      0
      (Int.fdiv ((⌊((PilImg.size img).2 : ℚ) * ((tw : ℚ) / ((PilImg.size img).1 : ℚ))⌋).toNat - (th : Int)) 2)
      (tw : Int)
      (Int.fdiv ((⌊((PilImg.size img).2 : ℚ) * ((tw : ℚ) / ((PilImg.size img).1 : ℚ))⌋).toNat - (th : Int)) 2 + (th : Int))

/-- Lines 80-134 of `src/app.py`: `process_image`.  `fetch` is the oracle for
`requests.get` + `Image.open` (download and decode); on success the code
converts to RGB, optionally resizes/crops, optionally enhances, and returns
`(img, original_size, None)`; any exception yields
`(None, None, "Failed to process {url}: {e}")`. -/
def process_image (fetch : String → Except String PilImg) (url : String)
    (target_size : Option (Nat × Nat)) (enhance : Bool) :
    Option PilImg × Option (Nat × Nat) × Option String :=
  match fetch url with
  | .error e => (none, none, some ("Failed to process " ++ url ++ ": " ++ e))
  | .ok raw =>
    match target_size with
    | none =>
        (some (enhancePipe enhance (PilImg.convertRGB raw)),
         some (PilImg.size (PilImg.convertRGB raw)), none)
    | some (tw, th) =>
      match resizeCropStep (PilImg.convertRGB raw) tw th with
      | .error e => (none, none, some ("Failed to process " ++ url ++ ": " ++ e))
      | .ok img1 =>
          (some (enhancePipe enhance img1),
           some (PilImg.size (PilImg.convertRGB raw)), none)

/-- An `<img>` tag as seen by the code: its `src` and `data-src` attributes
(absent attributes are `none`). -/
structure ImgTag where
  srcAttr : Option String
  dataSrcAttr : Option String
deriving DecidableEq

/-- A parsed search results page: the text of each `<script>` tag and the
`<img>` tags. -/
structure Page where
  scripts : List String
  imgs : List ImgTag
deriving DecidableEq

/-- The mutable state of the `while` loop of `get_image_urls`
(lines 20-72 of `src/app.py`).  `lastMatches` is the current binding of the
Python variable `matches` (`none` while still unbound); `trace` records the
`start` offset of every page request issued so far. -/
structure ScrapeState where
  imageUrls : List String
  errors : List String
  lastMatches : Option (List String)
  start : Nat
  trace : List Nat
deriving DecidableEq

/-- The observable outcome of `get_image_urls`: the returned URL list, the
returned error list, and the `start` offsets of the page requests issued. -/
structure ScrapeResult where
  urls : List String
  errors : List String
  requests : List Nat
deriving DecidableEq

/-- Line 10 of `src/app.py`. -/
def GOOGLE_IMAGE : String := "https://www.google.com/search?tbm=isch&"

/-- Line 32 of `src/app.py`: the search URL for a query and start offset. -/
def searchUrl (query : String) (start : Nat) : String :=
  GOOGLE_IMAGE ++ "q=" ++ query ++ "&start=" ++ toString start

/-- Line 43 of `src/app.py`: `url.strip(QUOTE).split("="-escape)[0]`
(the Python source splits on the six-character literal backslash-u003d). -/
def cleanScriptUrl (u : String) : String :=
  pySplitOnHead "\\u003d" (pyStrip '"' u)

/-- Lines 42-47 of `src/app.py`: fold the regex matches of one script into the
accumulated URL list, breaking as soon as the count reaches `num`. -/
def scanMatches (num : Int) : List String → List String → List String
  | urls, [] => urls
  | urls, u :: rest =>
    if pyStartsWith (cleanScriptUrl u) "http" && !(urls.contains (cleanScriptUrl u)) then
      if ((urls ++ [cleanScriptUrl u]).length : Int) ≥ num then urls ++ [cleanScriptUrl u]
      else scanMatches num (urls ++ [cleanScriptUrl u]) rest
    else scanMatches num urls rest

/-- Lines 40-49 of `src/app.py`: fold all scripts, tracking the binding of the
Python variable `matches`, breaking when the count reaches `num`. -/
def scanScripts (findall : String → List String) (num : Int) :
    List String → Option (List String) → List String → List String × Option (List String)
  | urls, m?, [] => (urls, m?)
  | urls, _, s :: rest =>
    if ((scanMatches num urls (findall s)).length : Int) ≥ num then
      (scanMatches num urls (findall s), some (findall s))
    else scanScripts findall num (scanMatches num urls (findall s)) (some (findall s)) rest

/-- Lines 52-62 of `src/app.py`: fold the `<img>` tags into the accumulated
URL list (the `src`-or-`data-src` value must be truthy and start with "http";
the appended value is clipped at the first QUESTION MARK), breaking when the
count reaches `num`. -/
def scanImgs (num : Int) : List String → List ImgTag → List String
  | urls, [] => urls
  | urls, t :: rest =>
    match pyOrStr t.srcAttr t.dataSrcAttr with
    | some s =>
      if (s != "") && pyStartsWith s "http" then
        if urls.contains (pySplitOnHead "?" s) then
          if ((urls.length : Int) ≥ num) then urls else scanImgs num urls rest
        else
          if (((urls ++ [pySplitOnHead "?" s]).length : Int) ≥ num) then urls ++ [pySplitOnHead "?" s]
          else scanImgs num (urls ++ [pySplitOnHead "?" s]) rest
      else
        if ((urls.length : Int) ≥ num) then urls else scanImgs num urls rest
    | none =>
      if ((urls.length : Int) ≥ num) then urls else scanImgs num urls rest

/-- One page worth of extraction (lines 37-62): scripts first, then `<img>`
tags; also returns the final binding of the Python variable `matches`. -/
def pageStep (findall : String → List String) (num : Int) (urls : List String)
    (m? : Option (List String)) (page : Page) : List String × Option (List String) :=
  (scanImgs num (scanScripts findall num urls m? page.scripts).1 page.imgs,
   (scanScripts findall num urls m? page.scripts).2)

/-- Line 64 of `src/app.py`: evaluation of `not img_tags and not matches`.
`none` means the evaluation raises `NameError` (the variable `matches` is
still unbound while `img_tags` is empty); `some b` means it evaluates to `b`. -/
def emptyPageSignal (imgsEmpty : Bool) (m? : Option (List String)) : Option Bool :=
  if imgsEmpty then
    match m? with
    | none => none
    | some m => some m.isEmpty
  else some false

/-- The message of the name error raised at line 64 when `matches` is unbound,
as appended by the handler at line 77.  The exact wording varies across
Python versions; the model fixes one representative text and no theorem
depends on it. -/
def nameErrorMsg : String :=
  "Error fetching images: name \x27matches\x27 is not defined"

/-- Line 71 of `src/app.py`. -/
def foundMsg (n : Nat) : String :=
  "Found " ++ toString n ++ " images. Google may have limited results."

/-- Line 74 of `src/app.py`: `return list(set(image_urls))[:num_images], errors`. -/
def finishScrape (num : Int) (urls errs : List String) (tr : List Nat) : ScrapeResult :=
  ⟨(urls.dedup).take num.toNat, errs, tr⟩

/-- Lines 30-78 of `src/app.py`: the scraping `while` loop together with the
surrounding `try`/`except`.  A page-oracle `Except.error` models any exception
raised by `requests.get`, `raise_for_status` or `BeautifulSoup`; the handler
at lines 76-78 returns `[]` with the formatted message.  The loop terminates
because `start` grows by 20 each iteration and the loop continues only while
`start + 20 < 100`. -/
def scrapeLoop (oracle : String → Except String Page) (findall : String → List String)
    (query : String) (num : Int) (st : ScrapeState) : ScrapeResult :=
  if (st.imageUrls.length : Int) < num then
    match oracle (searchUrl query st.start) with
    | .error e =>
        ⟨[], st.errors ++ ["Error fetching images: " ++ e], st.trace ++ [st.start]⟩
    | .ok page =>
      match pageStep findall num st.imageUrls st.lastMatches page with
      | (urls2, m?) =>
        match emptyPageSignal page.imgs.isEmpty m? with
        | none => ⟨[], st.errors ++ [nameErrorMsg], st.trace ++ [st.start]⟩
        | some true => finishScrape num urls2 st.errors (st.trace ++ [st.start])
        | some false =>
          if (urls2.length : Int) < num then
            if _h4 : 100 ≤ st.start + 20 then
              finishScrape num urls2 (st.errors ++ [foundMsg urls2.length])
                (st.trace ++ [st.start])
            else
              scrapeLoop oracle findall query num
                ⟨urls2, st.errors, m?, st.start + 20, st.trace ++ [st.start]⟩
          else finishScrape num urls2 st.errors (st.trace ++ [st.start])
  else finishScrape num st.imageUrls st.errors st.trace
termination_by 100 - st.start
decreasing_by simp_wf; omega

/-- Lines 12-78 of `src/app.py`: `get_image_urls`. -/
def get_image_urls (oracle : String → Except String Page)
    (findall : String → List String) (query : String) (num_images : Int) : ScrapeResult :=
  if num_images < 1 ∨ num_images > 100 then
    ⟨[], ["Number of images must be between 1 and 100."], []⟩
  else
    scrapeLoop oracle findall query num_images ⟨[], [], none, 0, []⟩

/-- Line 174 of `src/app.py`: the application calls
`get_image_urls(query, num_images)`; the Safe Search checkbox value
(line 154) is passed nowhere and read nowhere else. -/
def app_scrape (oracle : String → Except String Page) (findall : String → List String)
    (query : String) (num_images : Int) (_safety : Bool) : ScrapeResult :=
  get_image_urls oracle findall query num_images

/-- One `st.download_button` invocation (lines 218-224 of `src/app.py`). -/
structure DownloadButton where
  label : String
  fileName : String
  mime : String
deriving DecidableEq

/-- Lines 205-224 of `src/app.py`: the download widgets rendered after
processing, one per processed image; `count` is the number of processed
images. -/
def downloadButtons (query : String) (count : Nat) : List DownloadButton :=
  (List.range count).map (fun idx =>
    ⟨"⬇️ Download Image " ++ toString (idx + 1),
     pyReplace query ++ "_" ++ toString (idx + 1) ++ ".jpg",
     "image/jpeg"⟩)

/-- Every URL in the list starts with "http". -/
def allHttp (l : List String) : Prop := ∀ u ∈ l, pyStartsWith u "http" = true

/-- A concrete page oracle whose every request fails. -/
def oracleFail : String → Except String Page := fun _ => .error "boom"

/-- A concrete regex oracle returning no matches. -/
def findallNone : String → List String := fun _ => []

/-- A concrete image fetch oracle returning a fixed 16 by 10 decoded image. -/
def fetchImg : String → Except String PilImg := fun _ => .ok (PilImg.srcImg 0 16 10)

/-- A concrete image fetch oracle whose every request fails. -/
def fetchFail : String → Except String PilImg := fun _ => .error "boom"

/-- The enhancement pipeline preserves image dimensions. -/
lemma enhancePipe_size (e : Bool) (i : PilImg) : (enhancePipe e i).size = i.size := by
  cases e <;> simp [enhancePipe, PilImg.size]

/-- When the divisors are nonzero, the resize/crop step succeeds and the
output has exactly the target dimensions. -/
lemma resizeCropStep_ok_size (img : PilImg) (tw th : Nat) (hth : 0 < th)
    (how : 0 < (PilImg.size img).1) (hoh : 0 < (PilImg.size img).2) :
    ∃ out, resizeCropStep img tw th = .ok out ∧ PilImg.size out = (tw, th) := by
  unfold resizeCropStep
  rw [if_neg (by omega)]
  split
  · refine ⟨_, rfl, ?_⟩
    simp [PilImg.size]
  · rw [if_neg (by omega)]
    refine ⟨_, rfl, ?_⟩
    simp [PilImg.size]

/-- The resize/crop step introduces no enhancement filter. -/
lemma resizeCropStep_filterFree {img : PilImg} {tw th : Nat} {out : PilImg}
    (h : resizeCropStep img tw th = .ok out) : out.filterFree = img.filterFree := by
  unfold resizeCropStep at h
  split at h
  · cases h
  · split at h
    · cases h
      rfl
    · split at h
      · cases h
      · cases h
        rfl

/-- The empty list trivially satisfies `allHttp`. -/
lemma allHttp_nil : allHttp [] := by
  intro u hu
  cases hu

/-- Appending one checked URL preserves `allHttp`. -/
lemma allHttp_append_one {l : List String} {c : String} (hl : allHttp l)
    (hc : pyStartsWith c "http" = true) : allHttp (l ++ [c]) := by
  intro u hu
  rcases List.mem_append.mp hu with h | h
  · exact hl u h
  · rcases List.mem_singleton.mp h with rfl
    exact hc

/-- A prefix whose characters all differ from the head of the split pattern
survives taking the segment before the first pattern occurrence. -/
lemma isPrefixOf_splitHeadAux (hch : Char) (pt : List Char) :
    ∀ (p l : List Char), p.isPrefixOf l = true → (∀ c ∈ p, c ≠ hch) →
      p.isPrefixOf (splitHeadAux (hch :: pt) l) = true := by
  intro p
  induction p with
  | nil => intro l _ _; cases splitHeadAux (hch :: pt) l <;> rfl
  | cons a p2 ih =>
    intro l hpre hni
    cases l with
    | nil => simp [List.isPrefixOf] at hpre
    | cons b l2 =>
      rw [List.isPrefixOf, Bool.and_eq_true] at hpre
      have hab : a = b := eq_of_beq hpre.1
      have hpre2 : p2.isPrefixOf l2 = true := hpre.2
      have hbne : b ≠ hch := by
        intro hEq
        exact (hni a (by simp)) (hab.trans hEq)
      rw [splitHeadAux]
      rw [if_neg ?hneg]
      case hneg =>
        intro hcontra
        rw [List.isPrefixOf, Bool.and_eq_true] at hcontra
        exact hbne (eq_of_beq hcontra.1).symm
      rw [List.isPrefixOf, Bool.and_eq_true]
      exact ⟨beq_iff_eq.mpr hab, ih l2 hpre2 (fun c hc => hni c (by simp [hc]))⟩

/-- Clipping an http URL at its first QUESTION MARK keeps the http prefix. -/
lemma pyStartsWith_pySplitOnHead (s : String) (h : pyStartsWith s "http" = true) :
    pyStartsWith (pySplitOnHead "?" s) "http" = true := by
  unfold pyStartsWith at h ⊢
  unfold pySplitOnHead
  show "http".data.isPrefixOf (splitHeadAux "?".data s.data) = true
  have hq : "?".data = ['?'] := rfl
  rw [hq]
  exact isPrefixOf_splitHeadAux '?' [] "http".data s.data h (by decide)

/-- `scanMatches` preserves `allHttp` (every appended URL passed the
`startswith("http")` check of line 44). -/
lemma allHttp_scanMatches (num : Int) :
    ∀ (ms urls : List String), allHttp urls → allHttp (scanMatches num urls ms) := by
  intro ms
  induction ms with
  | nil => intro urls h; simpa [scanMatches] using h
  | cons u rest ih =>
    intro urls h
    rw [scanMatches]
    split
    next hcond =>
      rw [Bool.and_eq_true] at hcond
      have hc : pyStartsWith (cleanScriptUrl u) "http" = true := hcond.1
      split
      · exact allHttp_append_one h hc
      · exact ih _ (allHttp_append_one h hc)
    next => exact ih _ h

/-- `scanScripts` preserves `allHttp`. -/
lemma allHttp_scanScripts (f : String → List String) (num : Int) :
    ∀ (ss urls : List String) (m? : Option (List String)), allHttp urls →
      allHttp (scanScripts f num urls m? ss).1 := by
  intro ss
  induction ss with
  | nil => intro urls m? h; simpa [scanScripts] using h
  | cons s rest ih =>
    intro urls m? h
    rw [scanScripts]
    split
    · exact allHttp_scanMatches num _ _ h
    · exact ih _ _ (allHttp_scanMatches num _ _ h)

/-- `scanImgs` preserves `allHttp` (every appended URL passed the
`startswith("http")` check of line 55, and clipping at the first QUESTION
MARK keeps that prefix). -/
lemma allHttp_scanImgs (num : Int) :
    ∀ (ts : List ImgTag) (urls : List String), allHttp urls →
      allHttp (scanImgs num urls ts) := by
  intro ts
  induction ts with
  | nil => intro urls h; rw [scanImgs]; exact h
  | cons t rest ih =>
    intro urls h
    rw [scanImgs]
    split
    next s hsrc =>
      split
      next hcond =>
        rw [Bool.and_eq_true] at hcond
        have hs : pyStartsWith s "http" = true := hcond.2
        have hc := pyStartsWith_pySplitOnHead s hs
        split
        · split
          · exact h
          · exact ih _ h
        · split
          · exact allHttp_append_one h hc
          · exact ih _ (allHttp_append_one h hc)
      next =>
        split
        · exact h
        · exact ih _ h
    next =>
      split
      · exact h
      · exact ih _ h

/-- One full page extraction preserves `allHttp`. -/
lemma allHttp_pageStep (f : String → List String) (num : Int) (urls : List String)
    (m? : Option (List String)) (page : Page) (h : allHttp urls) :
    allHttp (pageStep f num urls m? page).1 :=
  allHttp_scanImgs num page.imgs _ (allHttp_scanScripts f num page.scripts urls m? h)

/-- `finishScrape` yields a duplicate-free list of at most `num` URLs, all
satisfying `allHttp` when the accumulated list did. -/
lemma finishScrape_c3 (num : Int) (urls errs : List String) (tr : List Nat)
    (h : allHttp urls) :
    (finishScrape num urls errs tr).urls.Nodup ∧
    (finishScrape num urls errs tr).urls.length ≤ num.toNat ∧
    allHttp (finishScrape num urls errs tr).urls := by
  refine ⟨?_, ?_, ?_⟩
  · exact (List.nodup_dedup urls).sublist (List.take_sublist _ _)
  · exact List.length_take_le _ _
  · intro u hu
    exact h u (List.mem_dedup.mp (List.mem_of_mem_take hu))

/-- Appending a fresh, strictly larger offset keeps the request trace
duplicate-free. -/
lemma nodup_concat_of_lt {tr : List Nat} {s : Nat} (h : ∀ x ∈ tr, x < s)
    (hn : tr.Nodup) : (tr ++ [s]).Nodup := by
  rw [List.nodup_append]
  refine ⟨hn, List.nodup_singleton s, ?_⟩
  intro x hx hxs
  rcases List.mem_singleton.mp hxs with rfl
  exact absurd (h x hx) (lt_irrefl x)

/-- Invariant of the scraping loop: from any state whose accumulated URLs all
start with "http", the loop returns a duplicate-free URL list of length at
most `num` whose elements all start with "http". -/
lemma scrapeLoop_c3 (o : String → Except String Page) (f : String → List String)
    (q : String) (num : Int) :
    ∀ (n : Nat) (st : ScrapeState), 100 - st.start ≤ n → allHttp st.imageUrls →
      ((scrapeLoop o f q num st).urls.Nodup ∧
       (scrapeLoop o f q num st).urls.length ≤ num.toNat ∧
       allHttp (scrapeLoop o f q num st).urls) := by
  intro n
  induction n using Nat.strong_induction_on with
  | _ n ih =>
    intro st hn hin
    rw [scrapeLoop]
    split
    · split
      · exact ⟨List.nodup_nil, Nat.zero_le _, allHttp_nil⟩
      · next page _ =>
        split
        next urls2 m? hps =>
          have hurls2 : allHttp urls2 := by
            have h2 := allHttp_pageStep f num st.imageUrls st.lastMatches page hin
            rw [hps] at h2
            exact h2
          split
          · exact ⟨List.nodup_nil, Nat.zero_le _, allHttp_nil⟩
          · exact finishScrape_c3 num urls2 _ _ hurls2
          · split
            · split
              · exact finishScrape_c3 num urls2 _ _ hurls2
              · next h4 =>
                exact ih (100 - (st.start + 20)) (by omega) _ (le_refl _) hurls2
            · exact finishScrape_c3 num urls2 _ _ hurls2
    · exact finishScrape_c3 num st.imageUrls _ _ hin

/-- The loop never issues the same page request twice: starting from a
duplicate-free trace of offsets all below the current `start`, the final
request trace is duplicate-free. -/
lemma scrapeLoop_requests_nodup (o : String → Except String Page)
    (f : String → List String) (q : String) (num : Int) :
    ∀ (n : Nat) (st : ScrapeState), 100 - st.start ≤ n →
      (∀ x ∈ st.trace, x < st.start) → st.trace.Nodup →
      (scrapeLoop o f q num st).requests.Nodup := by
  intro n
  induction n using Nat.strong_induction_on with
  | _ n ih =>
    intro st hn hlt hnd
    rw [scrapeLoop]
    split
    · split
      · exact nodup_concat_of_lt hlt hnd
      · split
        next urls2 m? hps =>
          split
          · exact nodup_concat_of_lt hlt hnd
          · exact nodup_concat_of_lt hlt hnd
          · split
            · split
              · exact nodup_concat_of_lt hlt hnd
              · next h4 =>
                refine ih (100 - (st.start + 20)) (by omega) _ (le_refl _) ?_ ?_
                · show ∀ x ∈ st.trace ++ [st.start], x < st.start + 20
                  intro x hx
                  rcases List.mem_append.mp hx with h | h
                  · exact lt_trans (hlt x h) (by omega)
                  · rcases List.mem_singleton.mp h with rfl
                    omega
                · show (st.trace ++ [st.start]).Nodup
                  exact nodup_concat_of_lt hlt hnd
            · exact nodup_concat_of_lt hlt hnd
    · exact hnd

/-- If one of the issued page requests raised (the oracle returned an error),
the loop returned `[]` with exactly the formatted error message appended to
the errors it entered with; requests made before an erroring one must have
succeeded, which the premise records. -/
lemma scrapeLoop_err (o : String → Except String Page) (f : String → List String)
    (q : String) (num : Int) :
    ∀ (n : Nat) (st : ScrapeState), 100 - st.start ≤ n →
      (∀ x ∈ st.trace, ∀ e, o (searchUrl q x) ≠ .error e) →
      ∀ s e, s ∈ (scrapeLoop o f q num st).requests → o (searchUrl q s) = .error e →
        (scrapeLoop o f q num st).urls = [] ∧
        (scrapeLoop o f q num st).errors = st.errors ++ ["Error fetching images: " ++ e] := by
  intro n
  induction n using Nat.strong_induction_on with
  | _ n ih =>
    intro st hn hok s e
    rcases hr : scrapeLoop o f q num st with ⟨u, er, rq⟩
    intro hs ho
    rw [scrapeLoop] at hr
    split at hr
    · split at hr
      · next e0 heq =>
        injection hr with h1 h2 h3
        subst h1
        subst h2
        subst h3
        rcases List.mem_append.mp hs with h | h
        · exact absurd ho (hok s h e)
        · rcases List.mem_singleton.mp h with rfl
          rw [ho] at heq
          injection heq with he
          subst he
          exact ⟨rfl, rfl⟩
      · next page heq =>
        split at hr
        next urls2 m? hps =>
          split at hr
          · injection hr with h1 h2 h3
            subst h1
            subst h2
            subst h3
            rcases List.mem_append.mp hs with h | h
            · exact absurd ho (hok s h e)
            · rcases List.mem_singleton.mp h with rfl
              rw [ho] at heq
              cases heq
          · unfold finishScrape at hr
            injection hr with h1 h2 h3
            subst h1
            subst h2
            subst h3
            rcases List.mem_append.mp hs with h | h
            · exact absurd ho (hok s h e)
            · rcases List.mem_singleton.mp h with rfl
              rw [ho] at heq
              cases heq
          · split at hr
            · split at hr
              · unfold finishScrape at hr
                injection hr with h1 h2 h3
                subst h1
                subst h2
                subst h3
                rcases List.mem_append.mp hs with h | h
                · exact absurd ho (hok s h e)
                · rcases List.mem_singleton.mp h with rfl
                  rw [ho] at heq
                  cases heq
              · next h4 =>
                have hok2 : ∀ x ∈ st.trace ++ [st.start], ∀ e2,
                    o (searchUrl q x) ≠ .error e2 := by
                  intro x hx e2
                  rcases List.mem_append.mp hx with h | h
                  · exact hok x h e2
                  · rcases List.mem_singleton.mp h with rfl
                    rw [heq]
                    intro hc
                    cases hc
                have := ih (100 - (st.start + 20)) (by omega)
                  ⟨urls2, st.errors, m?, st.start + 20, st.trace ++ [st.start]⟩
                  (le_refl _) hok2 s e (by rw [hr]; exact hs) ho
                rw [hr] at this
                exact this
            · unfold finishScrape at hr
              injection hr with h1 h2 h3
              subst h1
              subst h2
              subst h3
              rcases List.mem_append.mp hs with h | h
              · exact absurd ho (hok s h e)
              · rcases List.mem_singleton.mp h with rfl
                rw [ho] at heq
                cases heq
    · unfold finishScrape at hr
      injection hr with h1 h2 h3
      subst h1
      subst h2
      subst h3
      exact absurd ho (hok s hs e)

/-- Claim C1: for every target_size `(w, h)` with `w > 0` and `h > 0` and
every successfully decoded image, `process_image` returns an image whose
dimensions are exactly `(w, h)` (decoded images have positive dimensions,
recorded by the two positivity hypotheses). -/
theorem c1_process_image_target_dims (fetch : String → Except String PilImg)
    (url : String) (raw : PilImg) (tw th : Nat) (enhance : Bool)
    (hf : fetch url = .ok raw) (_htw : 0 < tw) (hth : 0 < th)
    (how : 0 < (PilImg.size raw).1) (hoh : 0 < (PilImg.size raw).2) :
    ∃ out, (process_image fetch url (some (tw, th)) enhance).1 = some out ∧
      PilImg.size out = (tw, th) := by
  have hsz : PilImg.size (PilImg.convertRGB raw) = PilImg.size raw := rfl
  obtain ⟨o, ho, hsz2⟩ := resizeCropStep_ok_size (PilImg.convertRGB raw) tw th hth
    (by rw [hsz]; exact how) (by rw [hsz]; exact hoh)
  refine ⟨enhancePipe enhance o, ?_, ?_⟩
  · simp [process_image, hf, ho]
  · rw [enhancePipe_size]
    exact hsz2

/-- Claim C1 witness at a concrete 16 by 10 source image and target 4 by 3. -/
theorem c1_witness :
    ∃ out, (process_image fetchImg "u" (some (4, 3)) true).1 = some out ∧
      PilImg.size out = (4, 3) :=
  c1_process_image_target_dims fetchImg "u" (PilImg.srcImg 0 16 10) 4 3 true rfl
    (by decide) (by decide) (by decide) (by decide)

/-- Claim C2: the resize/crop step of `process_image` equals the standard
cover-and-center-crop formula stated by the spec (strict aspect comparison,
`int`-floored scaled dimension, centered offset with floor division by 2). -/
theorem c2_resize_crop_formula (img : PilImg) (tw th : Nat) (hth : 0 < th)
    (how : 0 < (PilImg.size img).1) (hoh : 0 < (PilImg.size img).2) :
    resizeCropStep img tw th = .ok (coverCenterCrop img tw th) := by
  unfold resizeCropStep coverCenterCrop
  rw [if_neg (by omega)]
  by_cases hc : (((PilImg.size img).1 : ℚ) / ((PilImg.size img).2 : ℚ)) >
      ((tw : ℚ) / (th : ℚ))
  · rw [if_pos hc, if_pos hc]
  · rw [if_neg hc, if_neg hc, if_neg (by omega)]

/-- Claim C2 witness at a concrete 16 by 10 image and target 4 by 3. -/
theorem c2_witness :
    resizeCropStep (PilImg.srcImg 0 16 10) 4 3 =
      .ok (coverCenterCrop (PilImg.srcImg 0 16 10) 4 3) :=
  c2_resize_crop_formula (PilImg.srcImg 0 16 10) 4 3 (by decide) (by decide) (by decide)

/-- Claim C5: `process_image` never raises (it is total) and returns a triple
in which exactly one of the image and the error message is populated; on
failure the triple is `(None, None, message)` with the message naming the
failing URL, and on success the second component is the decoded image's
dimensions before any resizing. -/
theorem c5_process_image_triple (fetch : String → Except String PilImg)
    (url : String) (ts : Option (Nat × Nat)) (enhance : Bool) :
    ((∃ i, (process_image fetch url ts enhance).1 = some i) ↔
      (process_image fetch url ts enhance).2.2 = none) ∧
    (∀ m, (process_image fetch url ts enhance).2.2 = some m →
      (process_image fetch url ts enhance).1 = none ∧
      (process_image fetch url ts enhance).2.1 = none ∧
      ∃ e, m = "Failed to process " ++ url ++ ": " ++ e) ∧
    (∀ i, (process_image fetch url ts enhance).1 = some i →
      ∃ raw, fetch url = .ok raw ∧
        (process_image fetch url ts enhance).2.1 = some (PilImg.size raw)) := by
  cases hf : fetch url with
  | error e =>
    refine ⟨?_, ?_, ?_⟩
    · simp [process_image, hf]
    · intro m hm
      simp [process_image, hf] at hm
      simp [process_image, hf]
      exact ⟨e, hm.symm⟩
    · intro i hi
      simp [process_image, hf] at hi
  | ok raw =>
    cases ts with
    | none =>
      refine ⟨?_, ?_, ?_⟩
      · simp [process_image, hf]
      · intro m hm
        simp [process_image, hf] at hm
      · intro i hi
        exact ⟨raw, rfl, by simp [process_image, hf, PilImg.size]⟩
    | some p =>
      obtain ⟨tw, th⟩ := p
      cases hr : resizeCropStep (PilImg.convertRGB raw) tw th with
      | error e =>
        refine ⟨?_, ?_, ?_⟩
        · simp [process_image, hf, hr]
        · intro m hm
          simp [process_image, hf, hr] at hm
          simp [process_image, hf, hr]
          exact ⟨e, hm.symm⟩
        · intro i hi
          simp [process_image, hf, hr] at hi
      | ok img1 =>
        refine ⟨?_, ?_, ?_⟩
        · simp [process_image, hf, hr]
        · intro m hm
          simp [process_image, hf, hr] at hm
        · intro i hi
          exact ⟨raw, rfl, by simp [process_image, hf, hr, PilImg.size]⟩

/-- Claim C5 witness: a failing fetch yields the failure triple with the URL
named in the message. -/
theorem c5_witness :
    (process_image fetchFail "u" none true).1 = none ∧
    (process_image fetchFail "u" none true).2.1 = none ∧
    ∃ e, "Failed to process " ++ "u" ++ ": " ++ "boom" =
      "Failed to process " ++ "u" ++ ": " ++ e :=
  (c5_process_image_triple fetchFail "u" none true).2.1
    ("Failed to process " ++ "u" ++ ": " ++ "boom") rfl

/-- Claim C6: with `enhance` true the result is the `enhance = false` result
with the four filters applied on top, in order: UnsharpMask(2.5, 200, 3),
Contrast 1.2, Color 1.1, Sharpness 1.15; with `enhance` false none of these
filters is applied (the result of processing a decoded source image is
filter-free). -/
theorem c6_enhance_pipeline (fetch : String → Except String PilImg)
    (url : String) (ts : Option (Nat × Nat)) :
    ((process_image fetch url ts true).1 =
      ((process_image fetch url ts false).1).map
        (fun i => PilImg.sharpness
          (PilImg.color
            (PilImg.contrast
              (PilImg.unsharpMask i 2.5 200 3) 1.2) 1.1) 1.15)) ∧
    (∀ id w h, fetch url = .ok (PilImg.srcImg id w h) →
      ∀ i, (process_image fetch url ts false).1 = some i →
        i.filterFree = true) := by
  constructor
  · cases hf : fetch url with
    | error e => simp [process_image, hf]
    | ok raw =>
      cases ts with
      | none => simp [process_image, hf, enhancePipe]
      | some p =>
        obtain ⟨tw, th⟩ := p
        cases hr : resizeCropStep (PilImg.convertRGB raw) tw th with
        | error e => simp [process_image, hf, hr]
        | ok img1 => simp [process_image, hf, hr, enhancePipe]
  · intro id w h hf i hi
    cases ts with
    | none =>
      simp [process_image, hf, enhancePipe] at hi
      rw [← hi]
      rfl
    | some p =>
      obtain ⟨tw, th⟩ := p
      cases hr : resizeCropStep (PilImg.convertRGB (PilImg.srcImg id w h)) tw th with
      | error e => simp [process_image, hf, hr] at hi
      | ok img1 =>
        simp [process_image, hf, hr, enhancePipe] at hi
        rw [← hi]
        rw [resizeCropStep_filterFree hr]
        rfl

/-- Claim C6 witness: with enhancement off, the processed image carries no
filter. -/
theorem c6_witness :
    PilImg.filterFree (PilImg.convertRGB (PilImg.srcImg 0 16 10)) = true :=
  (c6_enhance_pipeline fetchImg "u" none).2 0 16 10 rfl
    (PilImg.convertRGB (PilImg.srcImg 0 16 10)) rfl

/-- Claim C9: with `target_size = None` and `enhance = False`, the result is
the decoded image unchanged apart from RGB conversion, the dimensions are
those of the decoded original, and the returned original size equals the
returned image's size. -/
theorem c9_identity_transform (fetch : String → Except String PilImg)
    (url : String) (raw : PilImg) (hf : fetch url = .ok raw) :
    process_image fetch url none false =
      (some (PilImg.convertRGB raw), some (PilImg.size raw), none) ∧
    PilImg.size (PilImg.convertRGB raw) = PilImg.size raw := by
  constructor
  · simp [process_image, hf, enhancePipe]
    rfl
  · rfl

/-- Claim C9 witness at a concrete decoded 16 by 10 image. -/
theorem c9_witness :
    process_image fetchImg "u" none false =
      (some (PilImg.convertRGB (PilImg.srcImg 0 16 10)),
       some (PilImg.size (PilImg.srcImg 0 16 10)), none) ∧
    PilImg.size (PilImg.convertRGB (PilImg.srcImg 0 16 10)) =
      PilImg.size (PilImg.srcImg 0 16 10) :=
  c9_identity_transform fetchImg "u" (PilImg.srcImg 0 16 10) rfl

/-- Claim C3: for every query and every `num_images` in `[1, 100]` (and any
behaviour of the network and of the regex engine), the URL list returned by
`get_image_urls` has no duplicates, has length at most `num_images`, and
every element starts with "http". -/
theorem c3_url_list_is_set (o : String → Except String Page)
    (f : String → List String) (q : String) (num : Int)
    (h1 : 1 ≤ num) (h2 : num ≤ 100) :
    (get_image_urls o f q num).urls.Nodup ∧
    ((get_image_urls o f q num).urls.length : Int) ≤ num ∧
    allHttp (get_image_urls o f q num).urls := by
  unfold get_image_urls
  rw [if_neg (by omega)]
  obtain ⟨ha, hb, hc⟩ := scrapeLoop_c3 o f q num 100 ⟨[], [], none, 0, []⟩
    (by omega) allHttp_nil
  exact ⟨ha, by omega, hc⟩

/-- Claim C3 witness at `num_images = 5` with a failing network oracle. -/
theorem c3_witness :
    (get_image_urls oracleFail findallNone "cat" 5).urls.Nodup ∧
    ((get_image_urls oracleFail findallNone "cat" 5).urls.length : Int) ≤ 5 ∧
    allHttp (get_image_urls oracleFail findallNone "cat" 5).urls :=
  c3_url_list_is_set oracleFail findallNone "cat" 5 (by decide) (by decide)

/-- Claim C4: `get_image_urls` never raises (it is a total function of the
page oracle), never issues the same page request twice, and if any issued
page request raised then the returned URL list is empty and the returned
error list is exactly the formatted message carrying the exception text. -/
theorem c4_failure_aborts (o : String → Except String Page)
    (f : String → List String) (q : String) (num : Int) :
    (get_image_urls o f q num).requests.Nodup ∧
    (∀ s e, s ∈ (get_image_urls o f q num).requests →
      o (searchUrl q s) = .error e →
      (get_image_urls o f q num).urls = [] ∧
      (get_image_urls o f q num).errors = ["Error fetching images: " ++ e]) := by
  unfold get_image_urls
  split
  · refine ⟨List.nodup_nil, ?_⟩
    intro s e hs _
    cases hs
  · constructor
    · exact scrapeLoop_requests_nodup o f q num 100 ⟨[], [], none, 0, []⟩
        (by omega) (by intro x hx; cases hx) List.nodup_nil
    · intro s e hs ho
      have h := scrapeLoop_err o f q num 100 ⟨[], [], none, 0, []⟩
        (by omega) (by intro x hx; cases hx) s e hs ho
      simpa using h

/-- Claim C4 witness: with an always-failing oracle the first request errors
and the function returns no URLs and the single formatted message. -/
theorem c4_witness :
    (get_image_urls oracleFail findallNone "cat" 5).urls = [] ∧
    (get_image_urls oracleFail findallNone "cat" 5).errors =
      ["Error fetching images: " ++ "boom"] :=
  (c4_failure_aborts oracleFail findallNone "cat" 5).2 0 "boom"
    (by simp [get_image_urls, scrapeLoop, oracleFail]) rfl

/-- Claim C8: when `num_images` is below 1 or above 100, `get_image_urls`
issues no page request and returns the empty list with exactly the one
bounds error message (lines 15-17 of `src/app.py`). -/
theorem c8_bounds_guard (o : String → Except String Page)
    (f : String → List String) (q : String) (num : Int)
    (h : num < 1 ∨ 100 < num) :
    get_image_urls o f q num =
      ⟨[], ["Number of images must be between 1 and 100."], []⟩ := by
  unfold get_image_urls
  rw [if_pos h]

/-- Claim C8 witness at `num_images = 0`. -/
theorem c8_witness :
    get_image_urls oracleFail findallNone "cat" 0 =
      ⟨[], ["Number of images must be between 1 and 100."], []⟩ :=
  c8_bounds_guard oracleFail findallNone "cat" 0 (Or.inl (by decide))

/-- Claim C10: the scraping result does not depend on the Safe Search
checkbox: two application runs differing only in the safety value construct
the same search URLs and return the same URL and error lists, because the
value is never used after it is read (line 174 calls
`get_image_urls(query, num_images)` only). -/
theorem c10_safety_noninterference (o : String → Except String Page)
    (f : String → List String) (q : String) (num : Int) (s1 s2 : Bool) :
    app_scrape o f q num s1 = app_scrape o f q num s2 ∧
    (app_scrape o f q num s1).requests.map (searchUrl q) =
      (app_scrape o f q num s2).requests.map (searchUrl q) ∧
    (app_scrape o f q num s1).urls = (app_scrape o f q num s2).urls :=
  ⟨rfl, rfl, rfl⟩

/-- Claim C7 counterexample: the download section offers no zip archive; at a
concrete run with two processed images no rendered download button carries a
zip payload (there is no zip functionality anywhere in `src/app.py`). -/
theorem c7_counterexample :
    ¬ ∃ b ∈ downloadButtons "cat" 2, b.mime = "application/zip" := by
  decide

/-- Claim C7 as amended: after processing, the application offers one
download button per processed image, each downloading that image as an
individual JPEG file named after the query and position; no zip archive
download exists. -/
theorem c7_individual_downloads_only (q : String) (n i : Nat) (h : i < n) :
    (downloadButtons q n)[i]? =
      some ⟨"⬇️ Download Image " ++ toString (i + 1),
            pyReplace q ++ "_" ++ toString (i + 1) ++ ".jpg", "image/jpeg"⟩ ∧
    ∀ b ∈ downloadButtons q n, b.mime = "image/jpeg" := by
  constructor
  · simp [downloadButtons, h]
  · intro b hb
    simp [downloadButtons] at hb
    obtain ⟨i2, _, rfl⟩ := hb
    rfl

/-- Claim C7 witness at a concrete query and two processed images. -/
theorem c7_witness :
    (downloadButtons "cat" 2)[0]? =
      some ⟨"⬇️ Download Image " ++ toString (0 + 1),
            pyReplace "cat" ++ "_" ++ toString (0 + 1) ++ ".jpg", "image/jpeg"⟩ ∧
    ∀ b ∈ downloadButtons "cat" 2, b.mime = "image/jpeg" :=
  c7_individual_downloads_only "cat" 2 0 (by decide)
